import Mathlib

/-!
Shallow embedding of the browser video-converter component.

The component is a single React function component holding its state in
hooks.  We embed that state as an explicit record (`ConverterState`) and the
event handlers (`loadFFmpeg`, `handleFileSelect`, `convertVideo`,
`resetConverter`) as pure state-transition functions.  The external FFmpeg
engine is an opaque collaborator: a conversion attempt either succeeds with
output bytes or throws at one of the awaited steps (write / exec / read),
which we model with the `EngineOutcome` parameter.  Browser blob URLs are
modelled by a fresh-handle counter plus the multiset of currently allocated
(never revoked) handles, so that leaking a URL is observable in the model.
-/

/-- A user-selected source file: a name plus opaque bytes. -/
structure SourceFile where
  name : String
  bytes : List Nat
deriving Repr, DecidableEq

/-- The `ConvertedFile` record of the source: blob (bytes + declared media
type), suggested download name, and the blob URL handle. -/
structure ConvertedFile where
  blobBytes : List Nat
  blobType : String
  name : String
  url : Nat
deriving Repr, DecidableEq

/-- The component's state hooks, plus bookkeeping that makes external
effects observable: `allocatedUrls` (blob URLs created and not revoked),
`nextUrl` (fresh-handle counter), `initCount` (how many times a new engine
instance was constructed), `execCommands` (every argument list passed to the
engine's exec call, in order). -/
structure ConverterState where
  file : Option SourceFile
  outputFormat : String
  isLoading : Bool
  isFFmpegLoaded : Bool
  progress : Int
  convertedFile : Option ConvertedFile
  error : String
  logs : List String
  allocatedUrls : List Nat
  nextUrl : Nat
  initCount : Nat
  execCommands : List (List String)
deriving Repr, DecidableEq

/-- JavaScript `s.split(".")` on the character list: splits at every dot,
keeping empty segments; `""` splits to `[""]`. -/
def splitDotChars : List Char → List (List Char)
  | [] => [[]]
  | c :: cs =>
    if c = '.' then [] :: splitDotChars cs
    else
      match splitDotChars cs with
      | [] => [[c]]
      | r :: rs => (c :: r) :: rs

/-- JavaScript `s.split(".")` as strings. -/
def jsSplitDot (s : String) : List String :=
  (splitDotChars s.data).map String.mk

/-- JavaScript `arr.pop()` on the (always nonempty) split result. -/
def jsLast (l : List String) : String := l.getLastD ""

/-- `` `input.${file.name.split(".").pop()}` `` from the source. -/
def inputNameFor (fileName : String) : String :=
  "input." ++ jsLast (jsSplitDot fileName)

/-- `file.name.split(".")[0]` from the source. -/
def baseNameFor (fileName : String) : String :=
  (jsSplitDot fileName).headD ""

/-- The suggested download name the source builds:
`` `${file.name.split(".")[0]} .  ${outputFormat}` `` (note the literal
space-dot-two-spaces between the interpolations). -/
def convertedNameFor (fileName outputFormat : String) : String :=
  baseNameFor fileName ++ " .  " ++ outputFormat

/-- The tokens pushed by the `switch (outputFormat)` statement. -/
def formatCodecArgs (outputFormat : String) : List String :=
  if outputFormat = "mp4" then
    ["-c:v", "libx264", "-c:a", "aac", "-preset", "medium"]
  else if outputFormat = "webm" then
    ["-c:v", "libvpx-vp9", "-c:a", "libopus"]
  else if outputFormat = "avi" then
    ["-c:v", "libx264", "-c:a", "mp3"]
  else if outputFormat = "mov" then
    ["-c:v", "libx264", "-c:a", "aac"]
  else if outputFormat = "mkv" then
    ["-c:v", "libx264", "-c:a", "aac"]
  else
    ["-c:v", "libx264", "-c:a", "aac"]

/-- The full argument list the source passes to `ffmpeg.exec`: the initial
`command` array literal (which already ends in `outputName`), then the
switch's pushes, then a final `command.push(outputName)`. -/
def buildCommand (inputName outputName outputFormat : String) : List String :=
  ["-i", inputName, "-c:v", "libx264", "-c:a", "aac", "-preset", "medium",
    outputName]
    ++ formatCodecArgs outputFormat ++ [outputName]

/-- Outcome of the engine collaborator during one conversion attempt:
success with the output-file bytes, or an exception thrown at one of the
three awaited engine calls. -/
inductive EngineOutcome where
  | ok (outputBytes : List Nat)
  | failAtWrite (msg : String)
  | failAtExec (msg : String)
  | failAtRead (msg : String)
deriving Repr, DecidableEq

/-- Outcome of the engine-load collaborator: `ffmpeg.load` resolves or
rejects with a message. -/
inductive LoadOutcome where
  | ok
  | fail (msg : String)
deriving Repr, DecidableEq

/-- The `catch` block of `convertVideo` (its message strings are the
load-error strings, verbatim from the source). -/
def convertCatch (s : ConverterState) (msg : String) : ConverterState :=
  { s with
    error := "Failed to load FFmpeg: " ++ msg
    logs := s.logs ++ ["Error loading FFmpeg: " ++ msg] }

/-- The `finally` block of `convertVideo`. -/
def convertFinally (s : ConverterState) : ConverterState :=
  { s with isLoading := false, progress := 0 }

/-- The `convertVideo` handler.  Guard: `if (!file || !isFFmpegLoaded)
return;`.  Then the try block writes the input, execs the command, reads the
output and publishes the converted file; the catch block records the error;
the finally block clears the in-flight flag and the progress. -/
def convertVideo (s : ConverterState) (eng : EngineOutcome) : ConverterState :=
  match s.file, s.isFFmpegLoaded with
  | some f, true =>
    let s1 := { s with
      isLoading := true
      error := ""
      progress := 0
      logs := s.logs ++ ["Starting conversion to " ++ s.outputFormat ++ "..."] }
    let cmd := buildCommand (inputNameFor f.name) ("output." ++ s.outputFormat)
      s.outputFormat
    match eng with
    | .failAtWrite msg => convertFinally (convertCatch s1 msg)
    | .failAtExec msg =>
      convertFinally
        (convertCatch { s1 with execCommands := s1.execCommands ++ [cmd] } msg)
    | .failAtRead msg =>
      convertFinally
        (convertCatch { s1 with execCommands := s1.execCommands ++ [cmd] } msg)
    | .ok data =>
      let s2 := { s1 with execCommands := s1.execCommands ++ [cmd] }
      convertFinally
        { s2 with
          convertedFile := some
            { blobBytes := data
              blobType := "video/" ++ s.outputFormat
              name := convertedNameFor f.name s.outputFormat
              url := s2.nextUrl }
          allocatedUrls := s2.allocatedUrls ++ [s2.nextUrl]
          nextUrl := s2.nextUrl + 1
          logs := s2.logs ++ ["Conversion completed successfully!"] }
  | _, _ => s

/-- The `handleFileSelect` handler; `event.target.files?.[0]` is modelled as
an `Option SourceFile`. -/
def handleFileSelect (s : ConverterState) (selectedFile : Option SourceFile) :
    ConverterState :=
  match selectedFile with
  | none => s
  | some f =>
    { s with
      file := some f
      convertedFile := none
      error := ""
      progress := 0
      logs := [] }

/-- The `resetConverter` handler (the file-input DOM value it also clears is
outside the model). -/
def resetConverter (s : ConverterState) : ConverterState :=
  { s with
    file := none
    convertedFile := none
    error := ""
    progress := 0
    logs := [] }

/-- The `loadFFmpeg` handler: early return when already loaded, otherwise
construct a new engine instance (counted by `initCount`), await its load,
and record success or failure; the finally block clears `isLoading`. -/
def loadFFmpeg (s : ConverterState) (r : LoadOutcome) : ConverterState :=
  if s.isFFmpegLoaded then s
  else
    let s1 := { s with
      isLoading := true
      logs := s.logs ++ ["Loading FFmpeg..."]
      initCount := s.initCount + 1 }
    match r with
    | .ok =>
      { s1 with
        isFFmpegLoaded := true
        logs := s1.logs ++ ["FFmpeg loaded successfully!"]
        isLoading := false }
    | .fail msg =>
      { s1 with
        error := "Failed to load FFmpeg: " ++ msg
        logs := s1.logs ++ ["Error loading FFmpeg: " ++ msg]
        isLoading := false }

/-- A click on the initialize button: the button is only rendered while the
engine is not loaded and is disabled while `isLoading` is set. -/
def loadClick (s : ConverterState) (r : LoadOutcome) : ConverterState :=
  if s.isFFmpegLoaded = false ∧ s.isLoading = false then loadFFmpeg s r else s

/-- A click on the convert button: the button is only rendered when a file
is selected and the engine is loaded, and is disabled while `isLoading` is
set. -/
def convertClick (s : ConverterState) (eng : EngineOutcome) : ConverterState :=
  if s.file.isSome = true ∧ s.isFFmpegLoaded = true ∧ s.isLoading = false then
    convertVideo s eng
  else s

/-- JavaScript `Math.round` on the values at hand (non-negative):
round half up. -/
def jsRound (q : ℚ) : ℤ := ⌊q + 1 / 2⌋

/-- The engine progress callback body: `setProgress(Math.round(ratio * 100))`. -/
def progressHandler (ratio : ℚ) : ℤ := jsRound (ratio * 100)

/-- The sequence of progress values the driver exposes for a sequence of
engine-reported ratios. -/
def progressTrace (ratios : List ℚ) : List ℤ := ratios.map progressHandler

/-- A representative reachable state: engine loaded, a `.mov` file selected,
format `webm` chosen, no job in flight. -/
def readyState : ConverterState where
  file := some { name := "video.mov", bytes := [7, 7] }
  outputFormat := "webm"
  isLoading := false
  isFFmpegLoaded := true
  progress := 0
  convertedFile := none
  error := ""
  logs := []
  allocatedUrls := []
  nextUrl := 0
  initCount := 1
  execCommands := []

/-- A state with a conversion in flight. -/
def busyState : ConverterState :=
  { readyState with isLoading := true, progress := 42 }

/-- Claim C4: selecting a new source file sets it as current, clears any
previous converted artifact, clears the error message and resets the
progress indicator to 0. -/
theorem c4_select_sets_file_clears_artifact_error_progress
    (s : ConverterState) (f : SourceFile) :
    (handleFileSelect s (some f)).file = some f
    ∧ (handleFileSelect s (some f)).convertedFile = none
    ∧ (handleFileSelect s (some f)).error = ""
    ∧ (handleFileSelect s (some f)).progress = 0 := by
  simp [handleFileSelect]

/-- Claim C3 fails on the code: discarding the converted artifact (reset or
new file selection) leaves the set of allocated blob URLs untouched — the
code never calls the release operation, so the transient handle is leaked
rather than released. -/
theorem c3_artifact_discarded_without_releasing_url
    (s : ConverterState) (f : SourceFile) :
    (resetConverter s).convertedFile = none
    ∧ (resetConverter s).allocatedUrls = s.allocatedUrls
    ∧ (handleFileSelect s (some f)).convertedFile = none
    ∧ (handleFileSelect s (some f)).allocatedUrls = s.allocatedUrls := by
  simp [resetConverter, handleFileSelect]

/-- Claim C10: every convert invocation that passes the guard ends with the
progress indicator reset to 0 and the in-flight flag cleared, on success as
well as on failure (the `finally` block). -/
theorem c10_convert_ends_with_zero_progress_and_flag_cleared
    (s : ConverterState) (f : SourceFile) (eng : EngineOutcome)
    (hf : s.file = some f) (hl : s.isFFmpegLoaded = true) :
    (convertVideo s eng).progress = 0
    ∧ (convertVideo s eng).isLoading = false := by
  cases eng <;> simp [convertVideo, hf, hl, convertFinally, convertCatch]

/-- Witness for C10 at a concrete ready state and a successful outcome. -/
theorem c10_witness :
    (convertVideo readyState (.ok [1])).progress = 0
    ∧ (convertVideo readyState (.ok [1])).isLoading = false :=
  c10_convert_ends_with_zero_progress_and_flag_cleared readyState
    { name := "video.mov", bytes := [7, 7] } (.ok [1]) rfl rfl

/-- Claim C8: a convert request issued while a conversion is in flight is
ignored (the convert button is disabled while `isLoading`): the state is
unchanged and no second engine execution is started. -/
theorem c8_convert_request_while_busy_ignored
    (s : ConverterState) (eng : EngineOutcome) (h : s.isLoading = true) :
    convertClick s eng = s
    ∧ (convertClick s eng).execCommands = s.execCommands := by
  simp [convertClick, h]

/-- Witness for C8 at a concrete busy state. -/
theorem c8_witness :
    convertClick busyState (.ok [1]) = busyState
    ∧ (convertClick busyState (.ok [1])).execCommands
      = busyState.execCommands :=
  c8_convert_request_while_busy_ignored busyState (.ok [1]) rfl

/-- Claim C2 as stated is false: after a successful conversion left an
artifact exposed, a later failing conversion does not clear it — the catch
block of `convertVideo` never touches `convertedFile`. -/
theorem c2_counterexample :
    (convertVideo
      { readyState with
        convertedFile := some
          { blobBytes := [1], blobType := "video/mp4",
            name := "video .  mp4", url := 0 }
        allocatedUrls := [0]
        nextUrl := 1 }
      (.failAtExec "boom")).convertedFile
    = some
      { blobBytes := [1], blobType := "video/mp4",
        name := "video .  mp4", url := 0 } := by
  decide

/-- Claim C2 (amended): a failed conversion produces no new artifact, sets
the error message, and clears the in-flight flag and the progress, but it
leaves `convertedFile` exactly as it was before the job — in particular an
artifact from an earlier successful conversion remains exposed. -/
theorem c2_failure_keeps_previous_artifact
    (s : ConverterState) (f : SourceFile) (msg : String) (eng : EngineOutcome)
    (hf : s.file = some f) (hl : s.isFFmpegLoaded = true)
    (he : eng = .failAtWrite msg ∨ eng = .failAtExec msg
      ∨ eng = .failAtRead msg) :
    (convertVideo s eng).convertedFile = s.convertedFile
    ∧ (convertVideo s eng).isLoading = false
    ∧ (convertVideo s eng).progress = 0
    ∧ (convertVideo s eng).error = "Failed to load FFmpeg: " ++ msg := by
  rcases he with he | he | he <;> subst he <;>
    simp [convertVideo, hf, hl, convertCatch, convertFinally]

/-- Witness for the amended C2 at a concrete ready state and a conversion
failing at the exec step. -/
theorem c2_witness :
    (convertVideo readyState (.failAtExec "boom")).convertedFile
      = readyState.convertedFile
    ∧ (convertVideo readyState (.failAtExec "boom")).isLoading = false
    ∧ (convertVideo readyState (.failAtExec "boom")).progress = 0
    ∧ (convertVideo readyState (.failAtExec "boom")).error
      = "Failed to load FFmpeg: " ++ "boom" :=
  c2_failure_keeps_previous_artifact readyState
    { name := "video.mov", bytes := [7, 7] } "boom" (.failAtExec "boom")
    rfl rfl (Or.inr (Or.inl rfl))

/-- Claim C6: loading is idempotent — `loadFFmpeg` returns the state
unchanged when the engine is already loaded, and a click on the initialize
button while a load is in flight is ignored (the button is disabled), so no
second engine instance is constructed. -/
theorem c6_load_idempotent_and_guarded (s : ConverterState) (r : LoadOutcome) :
    (s.isFFmpegLoaded = true → loadFFmpeg s r = s)
    ∧ (s.isLoading = true →
        loadClick s r = s ∧ (loadClick s r).initCount = s.initCount) := by
  constructor
  · intro h
    simp [loadFFmpeg, h]
  · intro h
    have hc : loadClick s r = s := by simp [loadClick, h]
    exact ⟨hc, by rw [hc]⟩

/-- Witness for C6 at a concrete state that is both loaded and busy. -/
theorem c6_witness :
    loadFFmpeg busyState .ok = busyState
    ∧ loadClick busyState .ok = busyState :=
  ⟨(c6_load_idempotent_and_guarded busyState .ok).1 rfl,
    ((c6_load_idempotent_and_guarded busyState .ok).2 rfl).1⟩

/-- Claim C7: for any engine-reported ratio sequence that is non-decreasing
and within [0, 1], the progress values the driver exposes are non-decreasing
and within [0, 100], and they are exactly the raw ratios scaled by 100 and
rounded — no smoothing or interpolation. -/
theorem c7_progress_relayed_monotone_bounded (ratios : List ℚ)
    (hmono : ratios.Chain' (· ≤ ·))
    (hbound : ∀ r ∈ ratios, 0 ≤ r ∧ r ≤ 1) :
    (progressTrace ratios).Chain' (· ≤ ·)
    ∧ (∀ p ∈ progressTrace ratios, 0 ≤ p ∧ p ≤ 100)
    ∧ progressTrace ratios = ratios.map (fun r => jsRound (r * 100)) := by
  refine ⟨?_, ?_, rfl⟩
  · refine List.chain'_map_of_chain' progressHandler (fun a b hab => ?_) hmono
    unfold progressHandler jsRound
    have h1 : a * 100 + 1 / 2 ≤ b * 100 + 1 / 2 := by nlinarith
    exact Int.floor_le_floor h1
  · intro p hp
    simp only [progressTrace, List.mem_map] at hp
    obtain ⟨r, hr, rfl⟩ := hp
    obtain ⟨h0, h1⟩ := hbound r hr
    unfold progressHandler jsRound
    constructor
    · have hq : ((0 : ℤ) : ℚ) ≤ r * 100 + 1 / 2 := by push_cast; nlinarith
      exact Int.le_floor.mpr hq
    · have hq : r * 100 + 1 / 2 < ((101 : ℤ) : ℚ) := by push_cast; nlinarith
      have hlt : ⌊r * 100 + 1 / 2⌋ < (101 : ℤ) := Int.floor_lt.mpr hq
      omega

/-- Witness for C7 on a concrete two-step ratio sequence. -/
theorem c7_witness :
    (progressTrace [(0 : ℚ), 1]).Chain' (· ≤ ·)
    ∧ (∀ p ∈ progressTrace [(0 : ℚ), 1], 0 ≤ p ∧ p ≤ 100)
    ∧ progressTrace [(0 : ℚ), 1]
      = [(0 : ℚ), 1].map (fun r => jsRound (r * 100)) :=
  c7_progress_relayed_monotone_bounded [0, 1] (by simp) (by simp)

/-- Claim C1 is violated on the code: converting `video.mov` to `webm`
passes the engine a command in which the codec flag groups occur twice and
the output token occurs both in the middle of the list (from the initial
array literal) and at the end (from the final push). -/
theorem c1_command_shape_violated :
    (convertVideo readyState (.ok [5])).execCommands
      = [buildCommand ("input.mov") ("output.webm") ("webm")]
    ∧ (buildCommand ("input.mov") ("output.webm") ("webm")).count ("-c:v") = 2
    ∧ (buildCommand ("input.mov") ("output.webm") ("webm")).count ("-c:a") = 2
    ∧ (buildCommand ("input.mov") ("output.webm") ("webm")).count
        ("output.webm") = 2
    ∧ (buildCommand ("input.mov") ("output.webm") ("webm")).dropLast.contains
        ("output.webm") = true := by
  decide

/-- Claim C5 is half right on the code: converting `video.mov` to `webm`
declares media type `video/webm`, but the suggested name is the literal
`video .  webm` (space, dot, two spaces), which does not end in `.webm`. -/
theorem c5_type_correct_but_name_malformed :
    (convertVideo readyState (.ok [5, 6])).convertedFile
      = some
        { blobBytes := [5, 6], blobType := "video/webm",
          name := "video .  webm", url := 0 }
    ∧ (".webm").data.isSuffixOf (("video .  webm").data) = false := by
  decide

/-- The dot-splitter never returns an empty list (JavaScript `split` always
yields at least one segment). -/
theorem splitDotChars_ne_nil (cs : List Char) : splitDotChars cs ≠ [] := by
  cases cs with
  | nil => simp [splitDotChars]
  | cons c cs =>
    simp only [splitDotChars]
    split
    · simp
    · split <;> simp

/-- Unfolding: a leading dot starts a fresh empty segment. -/
theorem splitDotChars_cons_dot (cs : List Char) :
    splitDotChars ('.' :: cs) = [] :: splitDotChars cs := by
  simp [splitDotChars]

/-- Unfolding: a leading non-dot character joins the first segment. -/
theorem splitDotChars_cons_ne (c : Char) (cs : List Char) (hc : ¬ c = '.')
    (r : List Char) (rs : List (List Char))
    (hrest : splitDotChars cs = r :: rs) :
    splitDotChars (c :: cs) = (c :: r) :: rs := by
  simp [splitDotChars, hc, hrest]

/-- A list containing a dot splits into at least two segments. -/
theorem two_le_length_splitDotChars (cs : List Char) (h : '.' ∈ cs) :
    2 ≤ (splitDotChars cs).length := by
  induction cs with
  | nil => simp at h
  | cons c cs ih =>
    by_cases hc : c = '.'
    · subst hc
      rw [splitDotChars_cons_dot]
      have h1 : splitDotChars cs ≠ [] := splitDotChars_ne_nil cs
      have h2 : 0 < (splitDotChars cs).length := List.length_pos.mpr h1
      simp only [List.length_cons]
      omega
    · have hmem : '.' ∈ cs := by
        rcases List.mem_cons.mp h with h1 | h1
        · exact absurd h1.symm hc
        · exact h1
      have ih2 := ih hmem
      cases hrest : splitDotChars cs with
      | nil => exact absurd hrest (splitDotChars_ne_nil cs)
      | cons r rs =>
        rw [splitDotChars_cons_ne c cs hc r rs hrest]
        rw [hrest] at ih2
        simp only [List.length_cons] at ih2 ⊢
        omega

/-- A dot-free list is a single segment. -/
theorem splitDotChars_no_dot (cs : List Char) (h : '.' ∉ cs) :
    splitDotChars cs = [cs] := by
  induction cs with
  | nil => rfl
  | cons c cs ih =>
    have hc : ¬ c = '.' := by
      intro hc
      exact h (by simp [hc])
    have h2 : '.' ∉ cs := by
      intro hm
      exact h (List.mem_cons_of_mem c hm)
    rw [splitDotChars_cons_ne c cs hc cs [] (ih h2)]

/-- The last segment of a split is determined by the part after the last
dot. -/
theorem getLastD_splitDotChars_append (xs ys : List Char) :
    (splitDotChars (xs ++ '.' :: ys)).getLastD []
      = (splitDotChars ys).getLastD [] := by
  induction xs with
  | nil =>
    rw [List.nil_append, splitDotChars_cons_dot, List.getLastD_cons]
  | cons c xs ih =>
    by_cases hc : c = '.'
    · subst hc
      rw [List.cons_append, splitDotChars_cons_dot, List.getLastD_cons]
      exact ih
    · rw [List.cons_append]
      cases hrest : splitDotChars (xs ++ '.' :: ys) with
      | nil => exact absurd hrest (splitDotChars_ne_nil _)
      | cons r rs =>
        rw [splitDotChars_cons_ne c _ hc r rs hrest]
        have h2 : 2 ≤ (splitDotChars (xs ++ '.' :: ys)).length :=
          two_le_length_splitDotChars _ (by simp)
        rw [hrest] at h2
        cases rs with
        | nil => simp at h2
        | cons z zs =>
          rw [List.getLastD_cons, List.getLastD_cons]
          have ih2 := ih
          rw [hrest, List.getLastD_cons, List.getLastD_cons] at ih2
          exact ih2

/-- `getLastD` commutes with packing char lists into strings. -/
theorem getLastD_map_mk :
    ∀ (l : List (List Char)) (d : List Char),
      (l.map String.mk).getLastD (String.mk d) = String.mk (l.getLastD d) := by
  intro l
  induction l with
  | nil => intro d; rfl
  | cons a l ih =>
    intro d
    simp only [List.map_cons, List.getLastD_cons]
    exact ih a

/-- Claim C9 fails as stated: a file name with no extension does not get a
fixed default handle — two extensionless names yield two different input
handles, each derived from the whole file name. -/
theorem c9_counterexample :
    inputNameFor ("video") = "input.video"
    ∧ inputNameFor ("clip") = "input.clip"
    ∧ inputNameFor ("video") ≠ inputNameFor ("clip") := by
  decide

/-- Claim C9 (amended): the input handle is `input.` followed by the last
dot-separated segment of the file name — the extension when the name has
one, and otherwise the entire file name rather than a fixed default. -/
theorem c9_input_handle_from_last_segment (name : String) :
    ('.' ∉ name.data → inputNameFor name = "input." ++ name)
    ∧ (∀ pre ext : String, name = pre ++ "." ++ ext → '.' ∉ ext.data →
        inputNameFor name = "input." ++ ext) := by
  constructor
  · intro h
    unfold inputNameFor jsLast jsSplitDot
    rw [splitDotChars_no_dot name.data h]
    rfl
  · intro pre ext hname hext
    unfold inputNameFor jsLast jsSplitDot
    have h0 : ("" : String) = String.mk [] := rfl
    rw [h0, getLastD_map_mk]
    have hdata : name.data = pre.data ++ '.' :: ext.data := by
      rw [hname, String.data_append, String.data_append, List.append_assoc]
      rfl
    rw [hdata, getLastD_splitDotChars_append,
      splitDotChars_no_dot ext.data hext]
    rfl

/-- Witness for the amended C9: an extensionless name and a `.mov` name. -/
theorem c9_witness :
    inputNameFor ("video") = "input." ++ "video"
    ∧ inputNameFor ("clip.mov") = "input." ++ "mov" :=
  ⟨(c9_input_handle_from_last_segment ("video")).1 (by decide),
    (c9_input_handle_from_last_segment ("clip.mov")).2 ("clip") ("mov")
      (by decide) (by decide)⟩
